import Mathlib

/-!
Verification of the addon lifecycle / event-dispatch core of pyload
(`src/pyload/manager/addon_manager.py`, class `AddonManager`).

The Python class is embedded shallowly:

* an addon instance becomes a `Plugin` record carrying the observable
  behaviour the manager consults: its class name, the result of
  `isActivated()`, its `__threaded__` set, the set of hook methods whose
  invocation raises an exception, whether `unload()` raises, its `info`
  dict and its RPC-callable attributes (for `getattr` in `callRPC`);
* the manager state (`plugins`, `pluginMap`, `methods`, `events`)
  becomes `AMState`, with dicts as association lists;
* every dispatch method is embedded as a function producing the list of
  observable `Action`s it performs (lock acquire/release, inline hook
  calls, background-thread submissions, event-listener calls, log
  records) together with a `Bool` telling whether a Python exception
  propagates to the caller;
* the `@lock` decorator (from `pyload.utils.utils`, not part of the
  sources here) acquires the reentrant lock, runs the function inside
  `try/finally`, and releases; it does not swallow exceptions.  The
  `@try_catch` decorator (defined inside the class) catches every
  exception and logs it.
-/

namespace AddonMgr

/-- Values handled by the RPC layer. -/
inductive Value where
  | int (n : Int)
  | bool (b : Bool)
  | str (s : String)
  deriving DecidableEq, Repr

/-- Behaviour of an addon method reachable through `getattr` in `callRPC`. -/
inductive RpcFun where
  /-- a two-argument method returning the sum of its two int arguments -/
  | addTwo
  /-- a method ignoring its arguments and returning a fixed value -/
  | constV (v : Value)
  deriving DecidableEq, Repr

/-- Calling the bound method: `none` models the call raising. -/
def RpcFun.apply : RpcFun → List Value → Option Value
  | RpcFun.addTwo, [Value.int a, Value.int b] => some (Value.int (a + b))
  | RpcFun.addTwo, _ => none
  | RpcFun.constV v, _ => some v

/-- One addon instance, as observed by `AddonManager`. -/
structure Plugin where
  /-- Python `__name__`, the key used in `pluginMap` -/
  name : String
  /-- the result of `isActivated()` -/
  activated : Bool
  /-- Python `__threaded__`, the declared threaded-method set -/
  threaded : List String
  /-- hook names whose method raises an exception when invoked inline -/
  raising : List String
  /-- does `unload()` raise? -/
  unloadRaises : Bool
  /-- the `info` dict (string keyed and valued) -/
  info : List (String × String)
  /-- attributes reachable by `getattr` for RPC calls -/
  attrs : List (String × RpcFun)
  deriving DecidableEq, Repr

/-- An event listener; `lid` models reference identity, `raises` whether
invoking it raises. -/
structure Listener where
  lid : Nat
  raises : Bool
  deriving DecidableEq, Repr

/-- Canonical hook arguments. -/
inductive Arg where
  | pyfile (fid : Nat)
  | package (pid : Nat)
  | ip (addr : String)
  | noArg
  deriving DecidableEq, Repr

/-- Observable actions performed by a dispatch call. -/
inductive Action where
  | acquire
  | release
  /-- inline invocation of `plugin.<hook>(arg)` -/
  | hookCall (pluginName hook : String) (arg : Arg)
  /-- Python `startThread(plugin.<method>, arg)`: submission to the background pool -/
  | threadStart (pluginName method : String) (arg : Arg)
  /-- a listener invocation performed by `dispatchEvent` -/
  | listenerCall (lid : Nat) (event : String) (arg : Arg)
  /-- Python `log.warning` emitted by `dispatchEvent` for a raising listener -/
  | logWarning (event : String) (lid : Nat) (arg : Arg)
  /-- Python `log.error` emitted by the `try_catch` decorator -/
  | logError
  deriving DecidableEq, Repr

/-- Association-list lookup, modelling Python `d[k]` / `k in d`. -/
def lookupA {α : Type} (l : List (String × α)) (k : String) : Option α :=
  match l with
  | [] => none
  | kv :: rest => if kv.1 = k then some kv.2 else lookupA rest k

/-- Replace the value stored at an existing key. -/
def updateA {α : Type} (l : List (String × α)) (k : String) (v : α) :
    List (String × α) :=
  match l with
  | [] => []
  | kv :: rest => if kv.1 = k then (k, v) :: rest else kv :: updateA rest k v

/-- Python dict assignment `d[k] = v`: overwrite if present, else append. -/
def insertA {α : Type} (l : List (String × α)) (k : String) (v : α) :
    List (String × α) :=
  match lookupA l k with
  | some _ => updateA l k v
  | none => l ++ [(k, v)]

/-- Python `del d[k]` (on a dict without duplicate keys). -/
def eraseA {α : Type} (l : List (String × α)) (k : String) :
    List (String × α) :=
  l.filter (fun kv => kv.1 ≠ k)

/-- The mutable state of `AddonManager`. -/
structure AMState where
  /-- Python `self.plugins`, the active-plugin index list -/
  plugins : List Plugin
  /-- Python `self.pluginMap`, name → instance -/
  pluginMap : List (String × Plugin)
  /-- Python `self.methods`, plugin short-name → \x7bmethod → doc\x7d -/
  methods : List (String × List (String × String))
  /-- Python `self.events`, event name → listener list -/
  events : List (String × List Listener)
  deriving DecidableEq, Repr

/-- The empty manager state. -/
def emptyState : AMState := { plugins := [], pluginMap := [], methods := [], events := [] }

/-! ## Event Bus: `addEvent`, `removeEvent`, `dispatchEvent` -/

/-- Python `addEvent(event, func)`: append the listener if not already present for
that event; create the event's list on first use. -/
def addEvent (st : AMState) (event : String) (func : Listener) : AMState :=
  match lookupA st.events event with
  | some fs =>
    if func ∈ fs then st
    else { st with events := updateA st.events event (fs ++ [func]) }
  | none => { st with events := st.events ++ [(event, [func])] }

/-- Python `removeEvent(event, func)`: remove the first occurrence if present;
no-op otherwise. -/
def removeEvent (st : AMState) (event : String) (func : Listener) : AMState :=
  match lookupA st.events event with
  | some fs =>
    if func ∈ fs then { st with events := updateA st.events event (fs.erase func) }
    else st
  | none => st

/-- The per-listener loop of `dispatchEvent`: each invocation is wrapped in
`try/except`; a raising listener is logged and iteration continues. -/
def dispatchLoop (event : String) (arg : Arg) : List Listener → List Action
  | [] => []
  | f :: fs =>
    if f.raises then
      Action.listenerCall f.lid event arg :: Action.logWarning event f.lid arg ::
        dispatchLoop event arg fs
    else
      Action.listenerCall f.lid event arg :: dispatchLoop event arg fs

/-- Python `dispatchEvent(event, *args)`: no-op when the event has no listener
list; otherwise invoke every listener in order.  Never raises. -/
def dispatchEvent (st : AMState) (event : String) (arg : Arg) : List Action :=
  match lookupA st.events event with
  | some fs => dispatchLoop event arg fs
  | none => []

/-- The listener identities invoked by a trace, in order. -/
def listenerCalls (tr : List Action) : List Nat :=
  tr.filterMap fun a =>
    match a with
    | Action.listenerCall i _ _ => some i
    | _ => none

/-! ## RPC Table: `addRPC`, `callRPC` -/

/-- Python `plugin.rpartition(".")[2]`: the part after the last dot (the whole
string when no dot occurs). -/
def shortName (s : String) : String :=
  String.mk ((s.data.reverse.takeWhile (fun c => c ≠ '.')).reverse)

/-- Python `doc.strip()`: drop leading and trailing whitespace. -/
def stripStr (s : String) : String :=
  String.mk
    (((s.data.dropWhile Char.isWhitespace).reverse.dropWhile Char.isWhitespace).reverse)

/-- Python `addRPC(plugin, func, doc)`: store `doc` (stripped; `""` when falsy)
under the plugin's short name, overwriting any previous entry for
`(plugin, func)`. -/
def addRPC (st : AMState) (plugin func doc : String) : AMState :=
  let p := shortName plugin
  let d := if doc = "" then "" else stripStr doc
  match lookupA st.methods p with
  | some m => { st with methods := updateA st.methods p (insertA m func d) }
  | none => { st with methods := st.methods ++ [(p, [(func, d)])] }

/-- Digit-by-digit accumulation of a decimal numeral; fails on the first
non-digit character. -/
def digitsToNatAux (acc : Nat) : List Char → Option Nat
  | [] => some acc
  | c :: cs =>
    if c.isDigit then digitsToNatAux (acc * 10 + (c.toNat - '0'.toNat)) cs
    else none

/-- An optionally negated non-empty decimal numeral. -/
def parseIntLit : List Char → Option Int
  | [] => none
  | '-' :: cs =>
    match cs with
    | [] => none
    | _ :: _ => (digitsToNatAux 0 cs).map (fun n => -(n : Int))
  | cs => (digitsToNatAux 0 cs).map (fun n => (n : Int))

/-- Modelled from the spec: `literal_eval` (imported from
`pyload.manager.plugin_manager`, whose source is not part of the
repository slice) parses an argument string as a literal value —
numbers, booleans and quoted strings; anything else fails.  Simple
containers are omitted from the model. -/
def literal_eval (s : String) : Option Value :=
  if s = "True" then some (Value.bool true)
  else if s = "False" then some (Value.bool false)
  else
    match parseIntLit s.data with
    | some n => some (Value.int n)
    | none =>
      match s.data with
      | '\'' :: rest =>
        if rest ≠ [] ∧ rest.getLast? = some '\'' then
          some (Value.str (String.mk rest.dropLast))
        else none
      | _ => none

/-- Typed outcomes of `callRPC`, naming the Python exception each one
embeds: `KeyError` on `pluginMap[plugin]` is `unknownPlugin`,
`AttributeError` on `getattr` is `unknownMethod`, `ValueError` from
`literal_eval` is `malformedArgument`, and an exception inside the bound
method itself is `callError`. -/
inductive RPCError where
  | malformedArgument
  | unknownPlugin
  | unknownMethod
  | callError
  deriving DecidableEq, Repr

/-- Python `tuple(literal_eval(x) for x in args)`: parse every argument, failing
on the first malformed one. -/
def parseArgs : List String → Except RPCError (List Value)
  | [] => Except.ok []
  | x :: xs =>
    match literal_eval x with
    | none => Except.error RPCError.malformedArgument
    | some v =>
      match parseArgs xs with
      | Except.error e => Except.error e
      | Except.ok vs => Except.ok (v :: vs)

/-- Python `callRPC(plugin, func, args, parse)`: parse the arguments when `parse`
(this happens before any lookup), resolve the instance via
`pluginMap[plugin]`, resolve the bound method via `getattr` on the
instance, call it and return the result. -/
def callRPC (st : AMState) (plugin func : String) (args : List String)
    (parse : Bool) : Except RPCError Value :=
  match (if parse then parseArgs args else Except.ok (args.map Value.str)) with
  | Except.error e => Except.error e
  | Except.ok argv =>
    match lookupA st.pluginMap plugin with
    | none => Except.error RPCError.unknownPlugin
    | some p =>
      match lookupA p.attrs func with
      | none => Except.error RPCError.unknownMethod
      | some f =>
        match f.apply argv with
        | none => Except.error RPCError.callError
        | some v => Except.ok v

/-! ## Activation Controller: `createIndex`, `activateAddon`,
`deactivateAddon`, `manageAddons` -/

/-- One entry of `pluginManager.addonPlugins` as `createIndex` and
`activateAddon` observe it: the configured activation flag, the result of
`loadClass` (`none` when the class cannot be loaded) and whether the
constructor raises. -/
structure AddonSpec where
  pname : String
  configActivated : Bool
  loadResult : Option Plugin
  instRaises : Bool
  deriving DecidableEq, Repr

/-- The body of `createIndex`'s loop for one plugin name: when the
configuration marks it active and the class loads and the constructor
does not raise, the instance is appended to the local list and stored in
`pluginMap` — without consulting `isActivated()` (which only selects the
name for the "Activated plugins" log line). -/
def createIndexStep (st : AMState) (s : AddonSpec) : AMState :=
  if s.configActivated then
    match s.loadResult with
    | none => st
    | some cls =>
      if s.instRaises then st
      else
        { st with plugins := st.plugins ++ [cls],
                  pluginMap := insertA st.pluginMap cls.name cls }
  else st

/-- Python `createIndex()`: rebuild `self.plugins` from scratch (the local
`plugins = []` list) while extending `pluginMap` in place. -/
def createIndex (specs : List AddonSpec) (st : AMState) : AMState :=
  specs.foldl createIndexStep { st with plugins := [] }

/-- Python `activateAddon(plugin)`: no-op when an instance with that `__name__`
is already loaded or when `loadClass` fails; otherwise instantiate,
append to the index, store in `pluginMap`, and start `coreReady` on a
new thread. -/
def activateAddon (st : AMState) (plugin : String) (loadResult : Option Plugin) :
    AMState × List Action :=
  if st.plugins.any (fun inst => inst.name = plugin) then (st, [])
  else
    match loadResult with
    | none => (st, [])
    | some cls =>
      ({ st with plugins := st.plugins ++ [cls],
                 pluginMap := insertA st.pluginMap cls.name cls },
       [Action.threadStart cls.name "coreReady" Arg.noArg])

/-- Python `deactivateAddon(plugin)`: find the last instance whose `__name__`
matches (the loop keeps overwriting `addon`); return unchanged when
absent.  `addon.unload()` is not guarded: when it raises, the exception
propagates and neither removal happens.  Otherwise the instance is
removed from `plugins` (`list.remove`: first occurrence) and its key
deleted from `pluginMap` (`del`, a `KeyError` — propagated after the
list removal — when the key is absent).  The `methods` table is never
touched.  The returned `Bool` tells whether an exception propagates. -/
def deactivateAddon (st : AMState) (plugin : String) : AMState × Bool :=
  match (st.plugins.filter (fun inst => inst.name = plugin)).getLast? with
  | none => (st, false)
  | some addon =>
    if addon.unloadRaises then (st, true)
    else
      let plugins' := st.plugins.erase addon
      match lookupA st.pluginMap addon.name with
      | some _ =>
        ({ st with plugins := plugins',
                   pluginMap := eraseA st.pluginMap addon.name }, false)
      | none => ({ st with plugins := plugins' }, true)

/-! ## Info queries -/

/-- Python `activePlugins()`: the instances whose `isActivated()` holds. -/
def activePlugins (st : AMState) : List Plugin :=
  st.plugins.filter (fun x => x.activated)

/-- Python `getAllInfo()`: every `pluginMap` entry whose instance stores a
truthy `info` dict, keyed by the map key; activation plays no role. -/
def getAllInfo (st : AMState) : List (String × List (String × String)) :=
  st.pluginMap.filterMap fun kv =>
    if kv.2.info ≠ [] then some (kv.1, kv.2.info) else none

/-- Python `getInfo(plugin)`: that instance's `info` when present and truthy,
else the empty dict. -/
def getInfo (st : AMState) (plugin : String) : List (String × String) :=
  match lookupA st.pluginMap plugin with
  | some p => if p.info ≠ [] then p.info else []
  | none => []

/-! ## Lifecycle Dispatcher

Each hook's `for plugin in self.plugins:` loop is embedded as a function
from the plugin list to the trace of actions the loop performs together
with a raised-exception flag; an inline call that raises stops the loop
there.  The full dispatch method then wraps the loop according to its
decorators (`@lock` acquires and — via `try/finally` — always releases;
`@try_catch` turns a raised exception into a `logError`) and appends the
`dispatchEvent` firing, which happens inside the decorated body. -/

/-- Loop of `coreReady`: inline `plugin.coreReady()` on activated
instances. -/
def coreReadyLoop : List Plugin → List Action × Bool
  | [] => ([], false)
  | p :: ps =>
    if p.activated then
      if "coreReady" ∈ p.raising then
        ([Action.hookCall p.name "coreReady" Arg.noArg], true)
      else
        let r := coreReadyLoop ps
        (Action.hookCall p.name "coreReady" Arg.noArg :: r.1, r.2)
    else coreReadyLoop ps

/-- Python `coreReady()`: `@try_catch`, no lock. -/
def coreReady (st : AMState) : List Action × Bool :=
  let r := coreReadyLoop st.plugins
  if r.2 then (r.1 ++ [Action.logError], false)
  else (r.1 ++ dispatchEvent st "coreReady" Arg.noArg, false)

/-- Loop of `coreExiting`: inline `plugin.coreExiting()` on activated
instances. -/
def coreExitingLoop : List Plugin → List Action × Bool
  | [] => ([], false)
  | p :: ps =>
    if p.activated then
      if "coreExiting" ∈ p.raising then
        ([Action.hookCall p.name "coreExiting" Arg.noArg], true)
      else
        let r := coreExitingLoop ps
        (Action.hookCall p.name "coreExiting" Arg.noArg :: r.1, r.2)
    else coreExitingLoop ps

/-- Python `coreExiting()`: `@try_catch`, no lock. -/
def coreExiting (st : AMState) : List Action × Bool :=
  let r := coreExitingLoop st.plugins
  if r.2 then (r.1 ++ [Action.logError], false)
  else (r.1 ++ dispatchEvent st "coreExiting" Arg.noArg, false)

/-- Loop of `downloadPreparing`: inline `plugin.downloadPreparing(pyfile)`
on activated instances; nothing catches a per-plugin exception. -/
def downloadPreparingLoop (fid : Nat) : List Plugin → List Action × Bool
  | [] => ([], false)
  | p :: ps =>
    if p.activated then
      if "downloadPreparing" ∈ p.raising then
        ([Action.hookCall p.name "downloadPreparing" (Arg.pyfile fid)], true)
      else
        let r := downloadPreparingLoop fid ps
        (Action.hookCall p.name "downloadPreparing" (Arg.pyfile fid) :: r.1, r.2)
    else downloadPreparingLoop fid ps

/-- Python `downloadPreparing(pyfile)`: `@lock` only — the lock is released by
`try/finally`, a plugin exception propagates to the caller, and the
event is not fired in that case. -/
def downloadPreparing (st : AMState) (fid : Nat) : List Action × Bool :=
  let r := downloadPreparingLoop fid st.plugins
  if r.2 then (Action.acquire :: r.1 ++ [Action.release], true)
  else
    (Action.acquire :: r.1 ++ dispatchEvent st "downloadPreparing" (Arg.pyfile fid)
      ++ [Action.release], false)

/-- Loop of `downloadFinished`: activated instances declaring
`"downloadFinished"` threaded get `startThread(plugin.downloadFinished,
pyfile)`; the rest are called inline. -/
def downloadFinishedLoop (fid : Nat) : List Plugin → List Action × Bool
  | [] => ([], false)
  | p :: ps =>
    if p.activated then
      if "downloadFinished" ∈ p.threaded then
        let r := downloadFinishedLoop fid ps
        (Action.threadStart p.name "downloadFinished" (Arg.pyfile fid) :: r.1, r.2)
      else
        if "downloadFinished" ∈ p.raising then
          ([Action.hookCall p.name "downloadFinished" (Arg.pyfile fid)], true)
        else
          let r := downloadFinishedLoop fid ps
          (Action.hookCall p.name "downloadFinished" (Arg.pyfile fid) :: r.1, r.2)
    else downloadFinishedLoop fid ps

/-- Python `downloadFinished(pyfile)`: `@lock` only. -/
def downloadFinished (st : AMState) (fid : Nat) : List Action × Bool :=
  let r := downloadFinishedLoop fid st.plugins
  if r.2 then (Action.acquire :: r.1 ++ [Action.release], true)
  else
    (Action.acquire :: r.1 ++ dispatchEvent st "downloadFinished" (Arg.pyfile fid)
      ++ [Action.release], false)

/-- Loop of `downloadFailed`: as written in the source, the threaded
branch submits `plugin.downloadFinished` — not `plugin.downloadFailed` —
to the background pool; the inline branch calls
`plugin.downloadFailed(pyfile)`. -/
def downloadFailedLoop (fid : Nat) : List Plugin → List Action × Bool
  | [] => ([], false)
  | p :: ps =>
    if p.activated then
      if "downloadFailed" ∈ p.threaded then
        let r := downloadFailedLoop fid ps
        (Action.threadStart p.name "downloadFinished" (Arg.pyfile fid) :: r.1, r.2)
      else
        if "downloadFailed" ∈ p.raising then
          ([Action.hookCall p.name "downloadFailed" (Arg.pyfile fid)], true)
        else
          let r := downloadFailedLoop fid ps
          (Action.hookCall p.name "downloadFailed" (Arg.pyfile fid) :: r.1, r.2)
    else downloadFailedLoop fid ps

/-- Python `downloadFailed(pyfile)`: `@lock` outside `@try_catch` — an exception
in the body is caught and logged, so nothing propagates. -/
def downloadFailed (st : AMState) (fid : Nat) : List Action × Bool :=
  let r := downloadFailedLoop fid st.plugins
  if r.2 then (Action.acquire :: (r.1 ++ [Action.logError]) ++ [Action.release], false)
  else
    (Action.acquire :: r.1 ++ dispatchEvent st "downloadFailed" (Arg.pyfile fid)
      ++ [Action.release], false)

/-- Loop of `packageFinished`: threaded or inline per `__threaded__`. -/
def packageFinishedLoop (pid : Nat) : List Plugin → List Action × Bool
  | [] => ([], false)
  | p :: ps =>
    if p.activated then
      if "packageFinished" ∈ p.threaded then
        let r := packageFinishedLoop pid ps
        (Action.threadStart p.name "packageFinished" (Arg.package pid) :: r.1, r.2)
      else
        if "packageFinished" ∈ p.raising then
          ([Action.hookCall p.name "packageFinished" (Arg.package pid)], true)
        else
          let r := packageFinishedLoop pid ps
          (Action.hookCall p.name "packageFinished" (Arg.package pid) :: r.1, r.2)
    else packageFinishedLoop pid ps

/-- Python `packageFinished(package)`: `@lock` only. -/
def packageFinished (st : AMState) (pid : Nat) : List Action × Bool :=
  let r := packageFinishedLoop pid st.plugins
  if r.2 then (Action.acquire :: r.1 ++ [Action.release], true)
  else
    (Action.acquire :: r.1 ++ dispatchEvent st "packageFinished" (Arg.package pid)
      ++ [Action.release], false)

/-- Loop of `beforeReconnecting`: every instance is called, with no
`isActivated()` check. -/
def beforeReconnectingLoop (addr : String) : List Plugin → List Action × Bool
  | [] => ([], false)
  | p :: ps =>
    if "beforeReconnecting" ∈ p.raising then
      ([Action.hookCall p.name "beforeReconnecting" (Arg.ip addr)], true)
    else
      let r := beforeReconnectingLoop addr ps
      (Action.hookCall p.name "beforeReconnecting" (Arg.ip addr) :: r.1, r.2)

/-- Python `beforeReconnecting(ip)`: decorated with `@lock` in the source. -/
def beforeReconnecting (st : AMState) (addr : String) : List Action × Bool :=
  let r := beforeReconnectingLoop addr st.plugins
  if r.2 then (Action.acquire :: r.1 ++ [Action.release], true)
  else
    (Action.acquire :: r.1 ++ dispatchEvent st "beforeReconnecting" (Arg.ip addr)
      ++ [Action.release], false)

/-- Loop of `afterReconnecting`: activated instances only. -/
def afterReconnectingLoop (addr : String) : List Plugin → List Action × Bool
  | [] => ([], false)
  | p :: ps =>
    if p.activated then
      if "afterReconnecting" ∈ p.raising then
        ([Action.hookCall p.name "afterReconnecting" (Arg.ip addr)], true)
      else
        let r := afterReconnectingLoop addr ps
        (Action.hookCall p.name "afterReconnecting" (Arg.ip addr) :: r.1, r.2)
    else afterReconnectingLoop addr ps

/-- Python `afterReconnecting(ip)`: `@lock` only. -/
def afterReconnecting (st : AMState) (addr : String) : List Action × Bool :=
  let r := afterReconnectingLoop addr st.plugins
  if r.2 then (Action.acquire :: r.1 ++ [Action.release], true)
  else
    (Action.acquire :: r.1 ++ dispatchEvent st "afterReconnecting" (Arg.ip addr)
      ++ [Action.release], false)

/-- The plugin name a single action delivers a hook to, if any. -/
def invokedOf : Action → Option String
  | Action.hookCall n _ _ => some n
  | Action.threadStart n _ _ => some n
  | _ => none

/-- Plugin names receiving the hook in a trace, whether inline or by
background submission. -/
def invokedNames (tr : List Action) : List String :=
  tr.filterMap invokedOf

/-! ## Association-list lemmas -/

theorem lookupA_updateA_self {α : Type} (l : List (String × α)) (k : String) (v : α)
    (h : (lookupA l k).isSome) : lookupA (updateA l k v) k = some v := by
  induction l with
  | nil => simp [lookupA] at h
  | cons kv rest ih =>
    by_cases hk : kv.1 = k
    · simp [updateA, lookupA, hk]
    · simp only [lookupA, hk, if_false] at h
      simp [updateA, lookupA, hk, ih h]

theorem lookupA_append_self {α : Type} (l : List (String × α)) (k : String) (v : α)
    (h : lookupA l k = none) : lookupA (l ++ [(k, v)]) k = some v := by
  induction l with
  | nil => simp [lookupA]
  | cons kv rest ih =>
    by_cases hk : kv.1 = k
    · simp [lookupA, hk] at h
    · simp only [lookupA, hk, if_false] at h
      simp [lookupA, hk, ih h]

theorem lookupA_eraseA {α : Type} (l : List (String × α)) (k : String) :
    lookupA (eraseA l k) k = none := by
  induction l with
  | nil => rfl
  | cons kv rest ih =>
    by_cases hk : kv.1 = k
    · simpa [eraseA, hk] using ih
    · simpa [eraseA, lookupA, hk] using ih

/-! ## Event Bus lemmas -/

theorem listenerCalls_dispatchLoop (event : String) (arg : Arg) (fs : List Listener) :
    listenerCalls (dispatchLoop event arg fs) = fs.map (fun f => f.lid) := by
  induction fs with
  | nil => rfl
  | cons f fs ih =>
    cases hr : f.raises <;>
      simp [dispatchLoop, hr, listenerCalls, List.filterMap] at ih ⊢ <;> exact ih

theorem logWarning_mem_dispatchLoop (event : String) (arg : Arg)
    (fs : List Listener) (f : Listener) (hf : f ∈ fs) (hr : f.raises = true) :
    Action.logWarning event f.lid arg ∈ dispatchLoop event arg fs := by
  induction fs with
  | nil => cases hf
  | cons g fs ih =>
    rcases List.mem_cons.mp hf with hfg | hfs
    · subst hfg
      simp [dispatchLoop, hr]
    · cases hg : g.raises <;> simp [dispatchLoop, hg, ih hfs]

theorem mem_dispatchLoop {a : Action} {event : String} {arg : Arg}
    {fs : List Listener} (h : a ∈ dispatchLoop event arg fs) :
    (∃ i, a = Action.listenerCall i event arg) ∨
      (∃ i, a = Action.logWarning event i arg) := by
  induction fs with
  | nil => cases h
  | cons f fs ih =>
    cases hf : f.raises <;> rw [dispatchLoop] at h <;> simp [hf] at h
    · rcases h with h | h
      · exact Or.inl ⟨f.lid, h⟩
      · exact ih h
    · rcases h with h | h | h
      · exact Or.inl ⟨f.lid, h⟩
      · exact Or.inr ⟨f.lid, h⟩
      · exact ih h

theorem mem_dispatchEvent {a : Action} {st : AMState} {event : String} {arg : Arg}
    (h : a ∈ dispatchEvent st event arg) :
    (∃ i, a = Action.listenerCall i event arg) ∨
      (∃ i, a = Action.logWarning event i arg) := by
  unfold dispatchEvent at h
  rcases hl : lookupA st.events event with _ | fs <;> rw [hl] at h
  · cases h
  · exact mem_dispatchLoop h

/-- C6 -- `dispatchEvent(event, args)`: with no listener list the call is a
no-op; otherwise every registered listener is invoked with the arguments
in registration order (so `L1` before `L2`, and `L2` is still invoked when
`L1` raises), and every raising listener produces a log record carrying
the event name, the listener identity and the arguments.  `dispatchEvent`
never raises (its embedding has no exception flag at all: each listener
invocation is wrapped in `try/except`). -/
theorem C6_dispatchEvent_ordered_and_guarded (st : AMState) (event : String) (arg : Arg) :
    (lookupA st.events event = none → dispatchEvent st event arg = []) ∧
    (∀ fs, lookupA st.events event = some fs →
      listenerCalls (dispatchEvent st event arg) = fs.map (fun f => f.lid) ∧
      ∀ f ∈ fs, f.raises = true →
        Action.logWarning event f.lid arg ∈ dispatchEvent st event arg) := by
  constructor
  · intro h
    unfold dispatchEvent
    rw [h]
  · intro fs h
    unfold dispatchEvent
    rw [h]
    exact ⟨listenerCalls_dispatchLoop event arg fs,
      fun f hf hr => logWarning_mem_dispatchLoop event arg fs f hf hr⟩

/-- Concrete run for C6: two listeners on `"pkgDone"`, the first raising;
both are invoked, in order, and the failure of listener 1 is logged. -/
theorem C6_dispatchEvent_ordered_and_guarded_witness :
    lookupA ({ emptyState with
        events := [("pkgDone", [⟨1, true⟩, ⟨2, false⟩])] } : AMState).events "pkgDone"
      = some [⟨1, true⟩, ⟨2, false⟩] ∧
    listenerCalls (dispatchEvent
        { emptyState with events := [("pkgDone", [⟨1, true⟩, ⟨2, false⟩])] }
        "pkgDone" (Arg.package 4)) = [1, 2] ∧
    Action.logWarning "pkgDone" 1 (Arg.package 4) ∈ dispatchEvent
        { emptyState with events := [("pkgDone", [⟨1, true⟩, ⟨2, false⟩])] }
        "pkgDone" (Arg.package 4) := by
  refine ⟨by decide, ?_, ?_⟩
  · exact ((C6_dispatchEvent_ordered_and_guarded _ "pkgDone" (Arg.package 4)).2
      [⟨1, true⟩, ⟨2, false⟩] (by decide)).1
  · exact ((C6_dispatchEvent_ordered_and_guarded _ "pkgDone" (Arg.package 4)).2
      [⟨1, true⟩, ⟨2, false⟩] (by decide)).2 ⟨1, true⟩ (by decide) (by decide)

/-- After `addEvent`, the event's listener list holds the listener. -/
theorem lookupA_events_addEvent (st : AMState) (event : String) (func : Listener) :
    ∃ fs, lookupA (addEvent st event func).events event = some fs ∧ func ∈ fs := by
  unfold addEvent
  rcases hl : lookupA st.events event with _ | fs
  · exact ⟨[func], lookupA_append_self st.events event [func] hl, List.mem_singleton.mpr rfl⟩
  · by_cases hf : func ∈ fs
    · exact ⟨fs, by simp [hl, hf], hf⟩
    · refine ⟨fs ++ [func], ?_, List.mem_append_right fs (List.mem_singleton.mpr rfl)⟩
      simp only [hf, if_false]
      exact lookupA_updateA_self st.events event (fs ++ [func]) (by simp [hl])

/-- If the event's list already holds the listener, `addEvent` is a no-op. -/
theorem addEvent_mem_noop (st : AMState) (event : String) (func : Listener)
    (fs : List Listener) (hl : lookupA st.events event = some fs) (hf : func ∈ fs) :
    addEvent st event func = st := by
  unfold addEvent
  rw [hl]
  simp [hf]

/-- C7 -- duplicate registration of the same listener for the same event is a
no-op (the second `addEvent` returns the state unchanged, so the listener
list is unchanged and a single `dispatchEvent` invokes the listener exactly
once when no other listener shares its identity), and removing a listener
that is not present — or whose event has no list at all — is a no-op. -/
theorem C7_addEvent_dup_noop_removeEvent_idempotent
    (st : AMState) (event : String) (func : Listener) (arg : Arg) :
    (addEvent (addEvent st event func) event func = addEvent st event func) ∧
    ((∀ fs, lookupA st.events event = some fs → ∀ g ∈ fs, g.lid ≠ func.lid) →
      (listenerCalls (dispatchEvent (addEvent (addEvent st event func) event func)
        event arg)).count func.lid = 1) ∧
    (lookupA st.events event = none → removeEvent st event func = st) ∧
    (∀ fs, lookupA st.events event = some fs → func ∉ fs →
      removeEvent st event func = st) := by
  obtain ⟨fs₁, hfs₁, hmem₁⟩ := lookupA_events_addEvent st event func
  have hdup : addEvent (addEvent st event func) event func = addEvent st event func :=
    addEvent_mem_noop _ event func fs₁ hfs₁ hmem₁
  refine ⟨hdup, ?_, ?_, ?_⟩
  · intro hfresh
    rw [hdup]
    rcases hl : lookupA st.events event with _ | fs
    · have hadd : lookupA (addEvent st event func).events event = some [func] := by
        unfold addEvent
        rw [hl]
        exact lookupA_append_self st.events event [func] hl
      unfold dispatchEvent
      rw [hadd, listenerCalls_dispatchLoop]
      simp
    · have hnmem : func ∉ fs := fun hf => hfresh fs hl func hf rfl
      have hadd : lookupA (addEvent st event func).events event = some (fs ++ [func]) := by
        unfold addEvent
        rw [hl]
        simp only [hnmem, if_false]
        exact lookupA_updateA_self st.events event (fs ++ [func]) (by simp [hl])
      unfold dispatchEvent
      rw [hadd, listenerCalls_dispatchLoop]
      have hnot : func.lid ∉ fs.map (fun f => f.lid) := by
        intro hmem
        obtain ⟨g, hg, hgl⟩ := List.mem_map.mp hmem
        exact hfresh fs hl g hg hgl
      simp [List.count_append, List.count_eq_zero.mpr hnot]
  · intro h
    unfold removeEvent
    rw [h]
  · intro fs hl hf
    unfold removeEvent
    rw [hl]
    simp [hf]

/-- Concrete run for C7: a fresh listener 9 added twice to an event that
already has listener 3; removal of an absent listener is a no-op. -/
theorem C7_addEvent_dup_noop_removeEvent_idempotent_witness :
    (addEvent (addEvent
        { emptyState with events := [("linksAdded", [⟨3, false⟩])] }
        "linksAdded" ⟨9, false⟩) "linksAdded" ⟨9, false⟩ =
      addEvent { emptyState with events := [("linksAdded", [⟨3, false⟩])] }
        "linksAdded" ⟨9, false⟩) ∧
    (listenerCalls (dispatchEvent (addEvent (addEvent
        { emptyState with events := [("linksAdded", [⟨3, false⟩])] }
        "linksAdded" ⟨9, false⟩) "linksAdded" ⟨9, false⟩)
      "linksAdded" Arg.noArg)).count 9 = 1 ∧
    removeEvent { emptyState with events := [("linksAdded", [⟨3, false⟩])] }
      "linksAdded" ⟨7, true⟩ =
      { emptyState with events := [("linksAdded", [⟨3, false⟩])] } := by
  have h := C7_addEvent_dup_noop_removeEvent_idempotent
    { emptyState with events := [("linksAdded", [⟨3, false⟩])] }
    "linksAdded" ⟨9, false⟩ Arg.noArg
  refine ⟨h.1, h.2.1 (by decide), ?_⟩
  exact (C7_addEvent_dup_noop_removeEvent_idempotent
    { emptyState with events := [("linksAdded", [⟨3, false⟩])] }
    "linksAdded" ⟨7, true⟩ Arg.noArg).2.2.2 [⟨3, false⟩] (by decide) (by decide)

/-! ## RPC lemmas and claims -/

/-- Any unparseable argument makes `parseArgs` fail with
`malformedArgument` (every parse failure carries that error, so the
first one to occur already is it). -/
theorem parseArgs_malformed {a : String} :
    ∀ {args : List String}, a ∈ args → literal_eval a = none →
      parseArgs args = Except.error RPCError.malformedArgument := by
  intro args
  induction args with
  | nil => intro h; cases h
  | cons x xs ih =>
    intro hmem hnone
    rcases List.mem_cons.mp hmem with hxa | hxs
    · subst hxa
      simp [parseArgs, hnone]
    · rcases hx : literal_eval x with _ | v
      · simp [parseArgs, hx]
      · simp [parseArgs, hx, ih hxs hnone]

/-- A plugin used by several RPC runs: `"Foo"` exposes an attribute
`bar` (an int-adding two-argument method) that is never registered in
the `methods` table. -/
def pluginFoo : Plugin :=
  { name := "Foo", activated := true, threaded := [], raising := [],
    unloadRaises := false, info := [], attrs := [("bar", RpcFun.addTwo)] }

/-- A manager state holding only `pluginFoo`, with an empty RPC
registration table. -/
def stFoo : AMState :=
  { plugins := [pluginFoo], pluginMap := [("Foo", pluginFoo)],
    methods := [], events := [] }

/-- C3 counterexample -- `("Foo", "bar")` was never registered in the RPC
table (`methods` is empty), yet `callRPC("Foo", "bar", ["1","2"], parse)`
does not fail with "unknown method": it resolves `bar` by attribute
lookup on the live instance and returns `3`. -/
theorem C3_counterexample_unregistered_method_succeeds :
    lookupA stFoo.methods "Foo" = none ∧
    callRPC stFoo "Foo" "bar" ["1", "2"] true = Except.ok (Value.int 3) := by
  constructor
  · rfl
  · rfl

/-- C3 (amended) -- `callRPC` parses the arguments first (when `parse`),
so a malformed argument fails the call with `malformedArgument` even
before — and regardless of — plugin resolution; an unknown plugin name
fails with `unknownPlugin`; a `func` that is not an attribute of the
live instance fails with `unknownMethod` (the `methods` registration
table is never consulted); otherwise the bound attribute is invoked on
the (parsed or raw) positional arguments and its result returned
verbatim. -/
theorem C3_callRPC_amended (st : AMState) (plugin func a : String)
    (args : List String) (vs : List Value) (p : Plugin) (f : RpcFun) (v : Value) :
    (a ∈ args → literal_eval a = none →
      callRPC st plugin func args true = Except.error RPCError.malformedArgument) ∧
    (lookupA st.pluginMap plugin = none →
      callRPC st plugin func args false = Except.error RPCError.unknownPlugin) ∧
    (parseArgs args = Except.ok vs → lookupA st.pluginMap plugin = none →
      callRPC st plugin func args true = Except.error RPCError.unknownPlugin) ∧
    (lookupA st.pluginMap plugin = some p → lookupA p.attrs func = none →
      callRPC st plugin func args false = Except.error RPCError.unknownMethod) ∧
    (lookupA st.pluginMap plugin = some p → lookupA p.attrs func = some f →
      f.apply (args.map Value.str) = some v →
      callRPC st plugin func args false = Except.ok v) ∧
    (parseArgs args = Except.ok vs → lookupA st.pluginMap plugin = some p →
      lookupA p.attrs func = some f → f.apply vs = some v →
      callRPC st plugin func args true = Except.ok v) := by
  refine ⟨?_, ?_, ?_, ?_, ?_, ?_⟩
  · intro hmem hnone
    simp [callRPC, parseArgs_malformed hmem hnone]
  · intro hp
    simp [callRPC, hp]
  · intro hargs hp
    simp [callRPC, hargs, hp]
  · intro hp hf
    simp [callRPC, hp, hf]
  · intro hp hf happ
    simp [callRPC, hp, hf, happ]
  · intro hargs hp hf happ
    simp [callRPC, hargs, hp, hf, happ]

/-- Concrete runs for the amended C3: a malformed literal fails even for
an unknown plugin; `"Unknown"` fails with `unknownPlugin`; a missing
attribute fails with `unknownMethod`; `invoke("Foo","bar",["1","2"],true)`
returns `3`. -/
theorem C3_callRPC_amended_witness :
    callRPC stFoo "Unknown" "bar" ["!!"] true
      = Except.error RPCError.malformedArgument ∧
    callRPC stFoo "Unknown" "bar" [] false = Except.error RPCError.unknownPlugin ∧
    callRPC stFoo "Foo" "baz" [] false = Except.error RPCError.unknownMethod ∧
    callRPC stFoo "Foo" "bar" ["1", "2"] true = Except.ok (Value.int 3) := by
  refine ⟨?_, ?_, ?_, ?_⟩
  · exact (C3_callRPC_amended stFoo "Unknown" "bar" "!!" ["!!"] []
      pluginFoo RpcFun.addTwo (Value.int 0)).1 (by decide) (by rfl)
  · exact (C3_callRPC_amended stFoo "Unknown" "bar" "" [] []
      pluginFoo RpcFun.addTwo (Value.int 0)).2.1 (by rfl)
  · exact (C3_callRPC_amended stFoo "Foo" "baz" "" [] []
      pluginFoo RpcFun.addTwo (Value.int 0)).2.2.2.1 (by rfl) (by rfl)
  · exact (C3_callRPC_amended stFoo "Foo" "bar" "" ["1", "2"]
      [Value.int 1, Value.int 2] pluginFoo RpcFun.addTwo
      (Value.int 3)).2.2.2.2.2 (by rfl) (by rfl) (by rfl) (by rfl)

/-! ## Activation-controller lemmas and claims -/

/-- Erasing the unique element of a list satisfying a predicate leaves no
element satisfying it. -/
theorem filter_erase_eq_nil {α : Type} [DecidableEq α] (q : α → Bool) (p : α)
    (hq : q p = true) :
    ∀ l : List α, l.filter q = [p] → (l.erase p).filter q = [] := by
  intro l
  induction l with
  | nil => intro h; simp [List.filter] at h
  | cons x xs ih =>
    intro h
    cases hx : q x with
    | true =>
      rw [List.filter_cons_of_pos hx] at h
      have hxp : x = p := (List.cons_eq_cons.mp h).1
      have hxs : xs.filter q = [] := (List.cons_eq_cons.mp h).2
      subst hxp
      rw [List.erase_cons_head]
      exact hxs
    | false =>
      rw [List.filter_cons_of_neg (by simp [hx])] at h
      have hxp : x ≠ p := fun he => by rw [he, hq] at hx; cases hx
      rw [List.erase_cons_tail (by simp [hxp])]
      rw [List.filter_cons_of_neg (by simp [hx])]
      exact ih h

/-- C2 (amended) -- neither `deactivateAddon` nor `activateAddon` ever
touches the `methods` table: deactivation removes the plugin from
`plugins` and `pluginMap` but leaves its RPC entries behind, so the
table can expose methods for a name absent from the index. -/
theorem C2_methods_table_never_pruned (st : AMState) (name : String)
    (lr : Option Plugin) :
    ((deactivateAddon st name).1).methods = st.methods ∧
    ((activateAddon st name lr).1).methods = st.methods := by
  constructor
  · unfold deactivateAddon
    (repeat' split) <;> rfl
  · unfold activateAddon
    (repeat' split) <;> rfl

/-- A well-behaved addon instance named `"X"`. -/
def pluginX : Plugin :=
  { name := "X", activated := true, threaded := [], raising := [],
    unloadRaises := false, info := [], attrs := [] }

/-- Activate `"X"`, let it register an RPC method, then deactivate it. -/
def stAfterActivate : AMState := (activateAddon emptyState "X" (some pluginX)).1

/-- The state after `"X"` self-registered `foo` via `addRPC`. -/
def stAfterRPC : AMState := addRPC stAfterActivate "addons.X" "foo" "does foo"

/-- The result of deactivating `"X"` again. -/
def stAfterDeactivate : AMState × Bool := deactivateAddon stAfterRPC "X"

/-- C2 counterexample -- after the operation sequence
`activateAddon("X")`, `addRPC("addons.X", "foo", ...)`,
`deactivateAddon("X")` (which succeeds: no exception), the name `"X"` is
absent from the index yet still owns an entry in the `methods` table. -/
theorem C2_counterexample_stale_rpc_entry :
    stAfterDeactivate.2 = false ∧
    stAfterDeactivate.1.plugins = [] ∧
    lookupA stAfterDeactivate.1.pluginMap "X" = none ∧
    lookupA stAfterDeactivate.1.methods "X" = some [("foo", "does foo")] :=
  ⟨rfl, rfl, rfl, rfl⟩

/-- C4 (amended) -- `deactivateAddon` removes the instance only when its
`unload()` returns normally: when `unload()` raises, the exception
propagates to the caller and the state is completely unchanged (the name
stays in `plugins` and `pluginMap`); when `unload()` returns and the
index is consistent, the instance is removed from both and nothing
propagates. -/
theorem C4_deactivateAddon_amended (st : AMState) (name : String) (p : Plugin) :
    ((st.plugins.filter (fun inst => inst.name = name)).getLast? = some p →
      p.unloadRaises = true → deactivateAddon st name = (st, true)) ∧
    (st.plugins.filter (fun inst => inst.name = name) = [p] →
      p.unloadRaises = false → lookupA st.pluginMap name = some p →
      (deactivateAddon st name).2 = false ∧
      ((deactivateAddon st name).1).plugins.filter (fun inst => inst.name = name) = [] ∧
      lookupA ((deactivateAddon st name).1).pluginMap name = none) := by
  constructor
  · intro hlast hraise
    unfold deactivateAddon
    rw [hlast]
    simp [hraise]
  · intro hfilter hok hmap
    have hlast : (st.plugins.filter (fun inst => inst.name = name)).getLast? = some p := by
      rw [hfilter]
      rfl
    have hpmem : p ∈ st.plugins.filter (fun inst => inst.name = name) := by
      rw [hfilter]
      exact List.mem_singleton.mpr rfl
    have hpname : p.name = name :=
      of_decide_eq_true (List.mem_filter.mp hpmem).2
    unfold deactivateAddon
    rw [hlast]
    simp only [hok, Bool.false_eq_true, if_false]
    rw [hpname, hmap]
    refine ⟨rfl, ?_, ?_⟩
    · exact filter_erase_eq_nil _ p (by simp [hpname]) st.plugins hfilter
    · simpa [hpname] using lookupA_eraseA st.pluginMap p.name

/-- An addon instance named `"X"` whose `unload()` raises. -/
def pluginXBad : Plugin :=
  { name := "X", activated := true, threaded := [], raising := [],
    unloadRaises := true, info := [], attrs := [] }

/-- A consistent index holding only the badly unloading `"X"`. -/
def stXBad : AMState :=
  { plugins := [pluginXBad], pluginMap := [("X", pluginXBad)],
    methods := [], events := [] }

/-- C4 counterexample -- deactivating `"X"` whose teardown raises leaves
the state unchanged and propagates the exception: `"X"` is still present
in `plugins` and `pluginMap` afterwards, against the claim that it ends
up absent from the index. -/
theorem C4_counterexample_unload_raise_keeps_index :
    deactivateAddon stXBad "X" = (stXBad, true) ∧
    ((deactivateAddon stXBad "X").1).plugins = [pluginXBad] ∧
    lookupA ((deactivateAddon stXBad "X").1).pluginMap "X" = some pluginXBad :=
  ⟨rfl, rfl, rfl⟩

/-- A consistent index holding only the well-behaved `"X"`. -/
def stXGood : AMState :=
  { plugins := [pluginX], pluginMap := [("X", pluginX)],
    methods := [], events := [] }

/-- Concrete runs for the amended C4: the raising teardown leaves the
state unchanged with the exception propagating, the normal teardown
removes `"X"` from both index structures. -/
theorem C4_deactivateAddon_amended_witness :
    deactivateAddon stXBad "X" = (stXBad, true) ∧
    ((deactivateAddon stXGood "X").2 = false ∧
      ((deactivateAddon stXGood "X").1).plugins.filter
        (fun inst => inst.name = "X") = [] ∧
      lookupA ((deactivateAddon stXGood "X").1).pluginMap "X" = none) := by
  constructor
  · exact (C4_deactivateAddon_amended stXBad "X" pluginXBad).1 (by rfl) (by rfl)
  · exact (C4_deactivateAddon_amended stXGood "X" pluginX).2 (by rfl) (by rfl) (by rfl)

/-! ## Dispatch-loop characterizations when no inline hook raises -/

theorem coreReadyLoop_noraise :
    ∀ ps : List Plugin, (∀ q ∈ ps, q.activated = true → "coreReady" ∉ q.raising) →
      coreReadyLoop ps =
        ((ps.filter (fun x => x.activated)).map
          (fun q => Action.hookCall q.name "coreReady" Arg.noArg), false) := by
  intro ps
  induction ps with
  | nil => intro _; rfl
  | cons p ps ih =>
    intro h
    have hps := fun q hq => h q (List.mem_cons_of_mem p hq)
    cases ha : p.activated with
    | false => simp [coreReadyLoop, ha, List.filter_cons, ih hps]
    | true =>
      have hnr : "coreReady" ∉ p.raising := h p (List.mem_cons_self p ps) ha
      simp [coreReadyLoop, ha, hnr, List.filter_cons, ih hps]

theorem coreExitingLoop_noraise :
    ∀ ps : List Plugin, (∀ q ∈ ps, q.activated = true → "coreExiting" ∉ q.raising) →
      coreExitingLoop ps =
        ((ps.filter (fun x => x.activated)).map
          (fun q => Action.hookCall q.name "coreExiting" Arg.noArg), false) := by
  intro ps
  induction ps with
  | nil => intro _; rfl
  | cons p ps ih =>
    intro h
    have hps := fun q hq => h q (List.mem_cons_of_mem p hq)
    cases ha : p.activated with
    | false => simp [coreExitingLoop, ha, List.filter_cons, ih hps]
    | true =>
      have hnr : "coreExiting" ∉ p.raising := h p (List.mem_cons_self p ps) ha
      simp [coreExitingLoop, ha, hnr, List.filter_cons, ih hps]

theorem downloadPreparingLoop_noraise (fid : Nat) :
    ∀ ps : List Plugin,
      (∀ q ∈ ps, q.activated = true → "downloadPreparing" ∉ q.raising) →
      downloadPreparingLoop fid ps =
        ((ps.filter (fun x => x.activated)).map
          (fun q => Action.hookCall q.name "downloadPreparing" (Arg.pyfile fid)),
          false) := by
  intro ps
  induction ps with
  | nil => intro _; rfl
  | cons p ps ih =>
    intro h
    have hps := fun q hq => h q (List.mem_cons_of_mem p hq)
    cases ha : p.activated with
    | false => simp [downloadPreparingLoop, ha, List.filter_cons, ih hps]
    | true =>
      have hnr : "downloadPreparing" ∉ p.raising := h p (List.mem_cons_self p ps) ha
      simp [downloadPreparingLoop, ha, hnr, List.filter_cons, ih hps]

theorem afterReconnectingLoop_noraise (addr : String) :
    ∀ ps : List Plugin,
      (∀ q ∈ ps, q.activated = true → "afterReconnecting" ∉ q.raising) →
      afterReconnectingLoop addr ps =
        ((ps.filter (fun x => x.activated)).map
          (fun q => Action.hookCall q.name "afterReconnecting" (Arg.ip addr)),
          false) := by
  intro ps
  induction ps with
  | nil => intro _; rfl
  | cons p ps ih =>
    intro h
    have hps := fun q hq => h q (List.mem_cons_of_mem p hq)
    cases ha : p.activated with
    | false => simp [afterReconnectingLoop, ha, List.filter_cons, ih hps]
    | true =>
      have hnr : "afterReconnecting" ∉ p.raising := h p (List.mem_cons_self p ps) ha
      simp [afterReconnectingLoop, ha, hnr, List.filter_cons, ih hps]

theorem beforeReconnectingLoop_noraise (addr : String) :
    ∀ ps : List Plugin, (∀ q ∈ ps, "beforeReconnecting" ∉ q.raising) →
      beforeReconnectingLoop addr ps =
        (ps.map (fun q => Action.hookCall q.name "beforeReconnecting" (Arg.ip addr)),
          false) := by
  intro ps
  induction ps with
  | nil => intro _; rfl
  | cons p ps ih =>
    intro h
    have hps := fun q hq => h q (List.mem_cons_of_mem p hq)
    have hnr : "beforeReconnecting" ∉ p.raising := h p (List.mem_cons_self p ps)
    simp [beforeReconnectingLoop, hnr, ih hps]

theorem downloadFinishedLoop_noraise (fid : Nat) :
    ∀ ps : List Plugin,
      (∀ q ∈ ps, q.activated = true → "downloadFinished" ∉ q.raising) →
      downloadFinishedLoop fid ps =
        ((ps.filter (fun x => x.activated)).map
          (fun q =>
            if "downloadFinished" ∈ q.threaded then
              Action.threadStart q.name "downloadFinished" (Arg.pyfile fid)
            else Action.hookCall q.name "downloadFinished" (Arg.pyfile fid)),
          false) := by
  intro ps
  induction ps with
  | nil => intro _; rfl
  | cons p ps ih =>
    intro h
    have hps := fun q hq => h q (List.mem_cons_of_mem p hq)
    cases ha : p.activated with
    | false => simp [downloadFinishedLoop, ha, List.filter_cons, ih hps]
    | true =>
      have hnr : "downloadFinished" ∉ p.raising := h p (List.mem_cons_self p ps) ha
      by_cases ht : "downloadFinished" ∈ p.threaded <;>
        simp [downloadFinishedLoop, ha, hnr, ht, List.filter_cons, ih hps]

theorem downloadFailedLoop_noraise (fid : Nat) :
    ∀ ps : List Plugin,
      (∀ q ∈ ps, q.activated = true → "downloadFailed" ∉ q.raising) →
      downloadFailedLoop fid ps =
        ((ps.filter (fun x => x.activated)).map
          (fun q =>
            if "downloadFailed" ∈ q.threaded then
              Action.threadStart q.name "downloadFinished" (Arg.pyfile fid)
            else Action.hookCall q.name "downloadFailed" (Arg.pyfile fid)),
          false) := by
  intro ps
  induction ps with
  | nil => intro _; rfl
  | cons p ps ih =>
    intro h
    have hps := fun q hq => h q (List.mem_cons_of_mem p hq)
    cases ha : p.activated with
    | false => simp [downloadFailedLoop, ha, List.filter_cons, ih hps]
    | true =>
      have hnr : "downloadFailed" ∉ p.raising := h p (List.mem_cons_self p ps) ha
      by_cases ht : "downloadFailed" ∈ p.threaded <;>
        simp [downloadFailedLoop, ha, hnr, ht, List.filter_cons, ih hps]

theorem packageFinishedLoop_noraise (pid : Nat) :
    ∀ ps : List Plugin,
      (∀ q ∈ ps, q.activated = true → "packageFinished" ∉ q.raising) →
      packageFinishedLoop pid ps =
        ((ps.filter (fun x => x.activated)).map
          (fun q =>
            if "packageFinished" ∈ q.threaded then
              Action.threadStart q.name "packageFinished" (Arg.package pid)
            else Action.hookCall q.name "packageFinished" (Arg.package pid)),
          false) := by
  intro ps
  induction ps with
  | nil => intro _; rfl
  | cons p ps ih =>
    intro h
    have hps := fun q hq => h q (List.mem_cons_of_mem p hq)
    cases ha : p.activated with
    | false => simp [packageFinishedLoop, ha, List.filter_cons, ih hps]
    | true =>
      have hnr : "packageFinished" ∉ p.raising := h p (List.mem_cons_self p ps) ha
      by_cases ht : "packageFinished" ∈ p.threaded <;>
        simp [packageFinishedLoop, ha, hnr, ht, List.filter_cons, ih hps]

/-! ## Which plugins a dispatch call reaches -/

theorem invokedNames_append (t1 t2 : List Action) :
    invokedNames (t1 ++ t2) = invokedNames t1 ++ invokedNames t2 :=
  List.filterMap_append t1 t2 invokedOf

theorem invokedNames_dispatchLoop (event : String) (arg : Arg) :
    ∀ fs : List Listener, invokedNames (dispatchLoop event arg fs) = [] := by
  intro fs
  induction fs with
  | nil => rfl
  | cons f fs ih =>
    cases hf : f.raises <;> simp [dispatchLoop, hf, invokedNames, invokedOf] at ih ⊢ <;>
      simpa [invokedNames] using ih

theorem invokedNames_dispatchEvent (st : AMState) (event : String) (arg : Arg) :
    List.filterMap invokedOf (dispatchEvent st event arg) = [] := by
  unfold dispatchEvent
  rcases lookupA st.events event with _ | fs
  · rfl
  · exact invokedNames_dispatchLoop event arg fs

theorem filterMap_invokedOf_hookCall (h : String) (g : Arg) :
    ∀ l : List Plugin,
      List.filterMap (invokedOf ∘ fun q => Action.hookCall q.name h g) l =
        l.map (fun q => q.name) := by
  intro l
  induction l with
  | nil => rfl
  | cons p l ih => simpa [List.filterMap, invokedOf] using ih

theorem filterMap_invokedOf_threaded (h m : String) (g : Arg) :
    ∀ l : List Plugin,
      List.filterMap (invokedOf ∘ fun q =>
          if h ∈ q.threaded then Action.threadStart q.name m g
          else Action.hookCall q.name h g) l =
        l.map (fun q => q.name) := by
  intro l
  induction l with
  | nil => rfl
  | cons p l ih =>
    by_cases ht : h ∈ p.threaded <;> simpa [List.filterMap, invokedOf, ht] using ih

theorem invokedNames_beforeReconnecting (st : AMState) (addr : String)
    (h : ∀ q ∈ st.plugins, "beforeReconnecting" ∉ q.raising) :
    invokedNames (beforeReconnecting st addr).1 = st.plugins.map (fun q => q.name) := by
  unfold beforeReconnecting
  rw [beforeReconnectingLoop_noraise addr st.plugins h]
  simp [invokedNames, invokedOf, List.filterMap_cons, List.filterMap_append,
    invokedNames_dispatchEvent, filterMap_invokedOf_hookCall]

theorem invokedNames_afterReconnecting (st : AMState) (addr : String)
    (h : ∀ q ∈ st.plugins, q.activated = true → "afterReconnecting" ∉ q.raising) :
    invokedNames (afterReconnecting st addr).1 =
      (st.plugins.filter (fun x => x.activated)).map (fun q => q.name) := by
  unfold afterReconnecting
  rw [afterReconnectingLoop_noraise addr st.plugins h]
  simp [invokedNames, invokedOf, List.filterMap_cons, List.filterMap_append,
    invokedNames_dispatchEvent, filterMap_invokedOf_hookCall]

theorem invokedNames_coreReady (st : AMState)
    (h : ∀ q ∈ st.plugins, q.activated = true → "coreReady" ∉ q.raising) :
    invokedNames (coreReady st).1 =
      (st.plugins.filter (fun x => x.activated)).map (fun q => q.name) := by
  unfold coreReady
  rw [coreReadyLoop_noraise st.plugins h]
  simp [invokedNames, invokedOf, List.filterMap_cons, List.filterMap_append,
    invokedNames_dispatchEvent, filterMap_invokedOf_hookCall]

theorem invokedNames_coreExiting (st : AMState)
    (h : ∀ q ∈ st.plugins, q.activated = true → "coreExiting" ∉ q.raising) :
    invokedNames (coreExiting st).1 =
      (st.plugins.filter (fun x => x.activated)).map (fun q => q.name) := by
  unfold coreExiting
  rw [coreExitingLoop_noraise st.plugins h]
  simp [invokedNames, invokedOf, List.filterMap_cons, List.filterMap_append,
    invokedNames_dispatchEvent, filterMap_invokedOf_hookCall]

theorem invokedNames_downloadPreparing (st : AMState) (fid : Nat)
    (h : ∀ q ∈ st.plugins, q.activated = true → "downloadPreparing" ∉ q.raising) :
    invokedNames (downloadPreparing st fid).1 =
      (st.plugins.filter (fun x => x.activated)).map (fun q => q.name) := by
  unfold downloadPreparing
  rw [downloadPreparingLoop_noraise fid st.plugins h]
  simp [invokedNames, invokedOf, List.filterMap_cons, List.filterMap_append,
    invokedNames_dispatchEvent, filterMap_invokedOf_hookCall]

theorem invokedNames_downloadFinished (st : AMState) (fid : Nat)
    (h : ∀ q ∈ st.plugins, q.activated = true → "downloadFinished" ∉ q.raising) :
    invokedNames (downloadFinished st fid).1 =
      (st.plugins.filter (fun x => x.activated)).map (fun q => q.name) := by
  unfold downloadFinished
  rw [downloadFinishedLoop_noraise fid st.plugins h]
  simp [invokedNames, invokedOf, List.filterMap_cons, List.filterMap_append,
    invokedNames_dispatchEvent, filterMap_invokedOf_threaded]

theorem invokedNames_downloadFailed (st : AMState) (fid : Nat)
    (h : ∀ q ∈ st.plugins, q.activated = true → "downloadFailed" ∉ q.raising) :
    invokedNames (downloadFailed st fid).1 =
      (st.plugins.filter (fun x => x.activated)).map (fun q => q.name) := by
  unfold downloadFailed
  rw [downloadFailedLoop_noraise fid st.plugins h]
  simp [invokedNames, invokedOf, List.filterMap_cons, List.filterMap_append,
    invokedNames_dispatchEvent, filterMap_invokedOf_threaded]

theorem invokedNames_packageFinished (st : AMState) (pid : Nat)
    (h : ∀ q ∈ st.plugins, q.activated = true → "packageFinished" ∉ q.raising) :
    invokedNames (packageFinished st pid).1 =
      (st.plugins.filter (fun x => x.activated)).map (fun q => q.name) := by
  unfold packageFinished
  rw [packageFinishedLoop_noraise pid st.plugins h]
  simp [invokedNames, invokedOf, List.filterMap_cons, List.filterMap_append,
    invokedNames_dispatchEvent, filterMap_invokedOf_threaded]

/-- C8 -- when no plugin method raises, `beforeReconnecting(ip)` delivers
the hook to every instance in the index, ignoring `isActivated()`: the
plugins reached are exactly `plugins` in order.  Every other lifecycle
hook (`afterReconnecting`, `coreReady`, `coreExiting`,
`downloadPreparing`, `downloadFinished`, `downloadFailed`,
`packageFinished`) reaches exactly the instances whose `isActivated()`
holds (inline or by background submission). -/
theorem C8_beforeReconnecting_ignores_activation (st : AMState) (addr : String)
    (fid pid : Nat) (h : ∀ q ∈ st.plugins, q.raising = ([] : List String)) :
    invokedNames (beforeReconnecting st addr).1 = st.plugins.map (fun q => q.name) ∧
    invokedNames (afterReconnecting st addr).1 =
      (st.plugins.filter (fun x => x.activated)).map (fun q => q.name) ∧
    invokedNames (coreReady st).1 =
      (st.plugins.filter (fun x => x.activated)).map (fun q => q.name) ∧
    invokedNames (coreExiting st).1 =
      (st.plugins.filter (fun x => x.activated)).map (fun q => q.name) ∧
    invokedNames (downloadPreparing st fid).1 =
      (st.plugins.filter (fun x => x.activated)).map (fun q => q.name) ∧
    invokedNames (downloadFinished st fid).1 =
      (st.plugins.filter (fun x => x.activated)).map (fun q => q.name) ∧
    invokedNames (downloadFailed st fid).1 =
      (st.plugins.filter (fun x => x.activated)).map (fun q => q.name) ∧
    invokedNames (packageFinished st pid).1 =
      (st.plugins.filter (fun x => x.activated)).map (fun q => q.name) := by
  have hno : ∀ (hk : String), ∀ q ∈ st.plugins, q.activated = true → hk ∉ q.raising := by
    intro hk q hq _
    rw [h q hq]
    exact List.not_mem_nil hk
  exact ⟨invokedNames_beforeReconnecting st addr
      (fun q hq => by rw [h q hq]; exact List.not_mem_nil _),
    invokedNames_afterReconnecting st addr (hno _),
    invokedNames_coreReady st (hno _),
    invokedNames_coreExiting st (hno _),
    invokedNames_downloadPreparing st fid (hno _),
    invokedNames_downloadFinished st fid (hno _),
    invokedNames_downloadFailed st fid (hno _),
    invokedNames_packageFinished st pid (hno _)⟩

/-- Two harmless instances, `"Act"` activated and `"Dorm"` not. -/
def pluginAct : Plugin :=
  { name := "Act", activated := true, threaded := [], raising := [],
    unloadRaises := false, info := [], attrs := [] }

/-- The dormant instance: in the index, `isActivated()` false. -/
def pluginDorm : Plugin :=
  { name := "Dorm", activated := false, threaded := [], raising := [],
    unloadRaises := false, info := [], attrs := [] }

/-- An index holding the activated `"Act"` and the dormant `"Dorm"`. -/
def stMixed : AMState :=
  { plugins := [pluginAct, pluginDorm],
    pluginMap := [("Act", pluginAct), ("Dorm", pluginDorm)],
    methods := [], events := [] }

/-- Concrete run for C8: `beforeReconnecting` reaches both instances,
`afterReconnecting` and `downloadPreparing` reach only the activated
one. -/
theorem C8_beforeReconnecting_ignores_activation_witness :
    invokedNames (beforeReconnecting stMixed "1.2.3.4").1 = ["Act", "Dorm"] ∧
    invokedNames (afterReconnecting stMixed "1.2.3.4").1 = ["Act"] ∧
    invokedNames (downloadPreparing stMixed 1).1 = ["Act"] := by
  have h := C8_beforeReconnecting_ignores_activation stMixed "1.2.3.4" 1 1
    (by intro q hq; fin_cases hq <;> rfl)
  exact ⟨h.1, h.2.1, h.2.2.2.2.1⟩

/-! ## Lock usage of the dispatch methods -/

/-- Does a trace contain any lock operation? -/
def touchesLock (tr : List Action) : Bool :=
  tr.any (fun a => a == Action.acquire || a == Action.release)

/-- Every action of `coreReadyLoop` is an inline `coreReady` call. -/
theorem mem_coreReadyLoop {a : Action} :
    ∀ {ps : List Plugin}, a ∈ (coreReadyLoop ps).1 →
      ∃ n g, a = Action.hookCall n "coreReady" g := by
  intro ps
  induction ps with
  | nil => intro h; cases h
  | cons p ps ih =>
    intro h
    by_cases ha : p.activated = true
    · by_cases hr : "coreReady" ∈ p.raising
      · simp [coreReadyLoop, ha, hr] at h
        exact ⟨p.name, Arg.noArg, h⟩
      · simp [coreReadyLoop, ha, hr] at h
        rcases h with h | h
        · exact ⟨p.name, Arg.noArg, h⟩
        · exact ih h
    · simp [coreReadyLoop, ha] at h
      exact ih h

/-- Every action of `coreExitingLoop` is an inline `coreExiting` call. -/
theorem mem_coreExitingLoop {a : Action} :
    ∀ {ps : List Plugin}, a ∈ (coreExitingLoop ps).1 →
      ∃ n g, a = Action.hookCall n "coreExiting" g := by
  intro ps
  induction ps with
  | nil => intro h; cases h
  | cons p ps ih =>
    intro h
    by_cases ha : p.activated = true
    · by_cases hr : "coreExiting" ∈ p.raising
      · simp [coreExitingLoop, ha, hr] at h
        exact ⟨p.name, Arg.noArg, h⟩
      · simp [coreExitingLoop, ha, hr] at h
        rcases h with h | h
        · exact ⟨p.name, Arg.noArg, h⟩
        · exact ih h
    · simp [coreExitingLoop, ha] at h
      exact ih h

theorem touchesLock_coreReady (st : AMState) : touchesLock (coreReady st).1 = false := by
  simp only [touchesLock, List.any_eq_false]
  intro a ha
  have hcases : (∃ n g, a = Action.hookCall n "coreReady" g) ∨
      (∃ i, a = Action.listenerCall i "coreReady" Arg.noArg) ∨
      (∃ i, a = Action.logWarning "coreReady" i Arg.noArg) ∨ a = Action.logError := by
    revert ha
    simp only [coreReady]
    by_cases hr : (coreReadyLoop st.plugins).2 = true <;> simp only [hr] <;>
      intro ha <;> simp at ha <;> rcases ha with ha | ha
    · exact Or.inl (mem_coreReadyLoop ha)
    · exact Or.inr (Or.inr (Or.inr ha))
    · exact Or.inl (mem_coreReadyLoop ha)
    · rcases mem_dispatchEvent ha with ⟨i, rfl⟩ | ⟨i, rfl⟩
      · exact Or.inr (Or.inl ⟨i, rfl⟩)
      · exact Or.inr (Or.inr (Or.inl ⟨i, rfl⟩))
  rcases hcases with ⟨n, g, rfl⟩ | ⟨i, rfl⟩ | ⟨i, rfl⟩ | rfl <;> simp

theorem touchesLock_coreExiting (st : AMState) :
    touchesLock (coreExiting st).1 = false := by
  simp only [touchesLock, List.any_eq_false]
  intro a ha
  have hcases : (∃ n g, a = Action.hookCall n "coreExiting" g) ∨
      (∃ i, a = Action.listenerCall i "coreExiting" Arg.noArg) ∨
      (∃ i, a = Action.logWarning "coreExiting" i Arg.noArg) ∨ a = Action.logError := by
    revert ha
    simp only [coreExiting]
    by_cases hr : (coreExitingLoop st.plugins).2 = true <;> simp only [hr] <;>
      intro ha <;> simp at ha <;> rcases ha with ha | ha
    · exact Or.inl (mem_coreExitingLoop ha)
    · exact Or.inr (Or.inr (Or.inr ha))
    · exact Or.inl (mem_coreExitingLoop ha)
    · rcases mem_dispatchEvent ha with ⟨i, rfl⟩ | ⟨i, rfl⟩
      · exact Or.inr (Or.inl ⟨i, rfl⟩)
      · exact Or.inr (Or.inr (Or.inl ⟨i, rfl⟩))
  rcases hcases with ⟨n, g, rfl⟩ | ⟨i, rfl⟩ | ⟨i, rfl⟩ | rfl <;> simp

/-- C9 (amended) -- the dispatch methods `downloadPreparing`,
`downloadFinished`, `downloadFailed`, `packageFinished`,
`afterReconnecting` *and also* `beforeReconnecting` (decorated `@lock` in
the source) each acquire the reentrant lock on entry and release it on
exit; only `coreReady` and `coreExiting` run without touching the
lock. -/
theorem C9_lock_usage (st : AMState) (fid pid : Nat) (addr : String) :
    (∃ t, (downloadPreparing st fid).1 = Action.acquire :: t ++ [Action.release]) ∧
    (∃ t, (downloadFinished st fid).1 = Action.acquire :: t ++ [Action.release]) ∧
    (∃ t, (downloadFailed st fid).1 = Action.acquire :: t ++ [Action.release]) ∧
    (∃ t, (packageFinished st pid).1 = Action.acquire :: t ++ [Action.release]) ∧
    (∃ t, (afterReconnecting st addr).1 = Action.acquire :: t ++ [Action.release]) ∧
    (∃ t, (beforeReconnecting st addr).1 = Action.acquire :: t ++ [Action.release]) ∧
    touchesLock (coreReady st).1 = false ∧
    touchesLock (coreExiting st).1 = false := by
  refine ⟨?_, ?_, ?_, ?_, ?_, ?_, touchesLock_coreReady st, touchesLock_coreExiting st⟩
  · simp only [downloadPreparing]
    by_cases hr : (downloadPreparingLoop fid st.plugins).2 = true <;> simp only [hr]
    · exact ⟨(downloadPreparingLoop fid st.plugins).1, by simp⟩
    · exact ⟨(downloadPreparingLoop fid st.plugins).1 ++
        dispatchEvent st "downloadPreparing" (Arg.pyfile fid), by simp⟩
  · simp only [downloadFinished]
    by_cases hr : (downloadFinishedLoop fid st.plugins).2 = true <;> simp only [hr]
    · exact ⟨(downloadFinishedLoop fid st.plugins).1, by simp⟩
    · exact ⟨(downloadFinishedLoop fid st.plugins).1 ++
        dispatchEvent st "downloadFinished" (Arg.pyfile fid), by simp⟩
  · simp only [downloadFailed]
    by_cases hr : (downloadFailedLoop fid st.plugins).2 = true <;> simp only [hr]
    · exact ⟨(downloadFailedLoop fid st.plugins).1 ++ [Action.logError], by simp⟩
    · exact ⟨(downloadFailedLoop fid st.plugins).1 ++
        dispatchEvent st "downloadFailed" (Arg.pyfile fid), by simp⟩
  · simp only [packageFinished]
    by_cases hr : (packageFinishedLoop pid st.plugins).2 = true <;> simp only [hr]
    · exact ⟨(packageFinishedLoop pid st.plugins).1, by simp⟩
    · exact ⟨(packageFinishedLoop pid st.plugins).1 ++
        dispatchEvent st "packageFinished" (Arg.package pid), by simp⟩
  · simp only [afterReconnecting]
    by_cases hr : (afterReconnectingLoop addr st.plugins).2 = true <;> simp only [hr]
    · exact ⟨(afterReconnectingLoop addr st.plugins).1, by simp⟩
    · exact ⟨(afterReconnectingLoop addr st.plugins).1 ++
        dispatchEvent st "afterReconnecting" (Arg.ip addr), by simp⟩
  · simp only [beforeReconnecting]
    by_cases hr : (beforeReconnectingLoop addr st.plugins).2 = true <;> simp only [hr]
    · exact ⟨(beforeReconnectingLoop addr st.plugins).1, by simp⟩
    · exact ⟨(beforeReconnectingLoop addr st.plugins).1 ++
        dispatchEvent st "beforeReconnecting" (Arg.ip addr), by simp⟩

/-- C9 counterexample -- `beforeReconnecting` does acquire the lock: on a
concrete two-plugin index its full trace begins with the acquisition and
ends with the release, against the claim that it runs unlocked. -/
theorem C9_counterexample_beforeReconnecting_locks :
    beforeReconnecting stMixed "1.2.3.4" =
      ([Action.acquire,
        Action.hookCall "Act" "beforeReconnecting" (Arg.ip "1.2.3.4"),
        Action.hookCall "Dorm" "beforeReconnecting" (Arg.ip "1.2.3.4"),
        Action.release], false) := rfl

/-! ## A raising inline hook aborts the loop -/

theorem downloadPreparingLoop_raise_at (fid : Nat) (p : Plugin)
    (hp : p.activated = true) (hr : "downloadPreparing" ∈ p.raising) :
    ∀ pre : List Plugin, ∀ post : List Plugin,
      (∀ q ∈ pre, q.activated = true → "downloadPreparing" ∉ q.raising) →
      downloadPreparingLoop fid (pre ++ p :: post) =
        ((pre.filter (fun x => x.activated)).map
            (fun q => Action.hookCall q.name "downloadPreparing" (Arg.pyfile fid))
          ++ [Action.hookCall p.name "downloadPreparing" (Arg.pyfile fid)], true) := by
  intro pre post
  induction pre with
  | nil => intro _; simp [downloadPreparingLoop, hp, hr]
  | cons x xs ih =>
    intro h
    have hxs := fun q hq => h q (List.mem_cons_of_mem x hq)
    by_cases hx : x.activated = true
    · have hnr : "downloadPreparing" ∉ x.raising := h x (List.mem_cons_self x xs) hx
      simp [downloadPreparingLoop, hx, hnr, List.filter_cons, ih hxs]
    · simp [downloadPreparingLoop, hx, List.filter_cons, ih hxs]

theorem downloadFinishedLoop_raise_at (fid : Nat) (p : Plugin)
    (hp : p.activated = true) (ht : "downloadFinished" ∉ p.threaded)
    (hr : "downloadFinished" ∈ p.raising) :
    ∀ pre : List Plugin, ∀ post : List Plugin,
      (∀ q ∈ pre, q.activated = true → "downloadFinished" ∉ q.raising) →
      downloadFinishedLoop fid (pre ++ p :: post) =
        ((pre.filter (fun x => x.activated)).map
            (fun q =>
              if "downloadFinished" ∈ q.threaded then
                Action.threadStart q.name "downloadFinished" (Arg.pyfile fid)
              else Action.hookCall q.name "downloadFinished" (Arg.pyfile fid))
          ++ [Action.hookCall p.name "downloadFinished" (Arg.pyfile fid)], true) := by
  intro pre post
  induction pre with
  | nil => intro _; simp [downloadFinishedLoop, hp, ht, hr]
  | cons x xs ih =>
    intro h
    have hxs := fun q hq => h q (List.mem_cons_of_mem x hq)
    by_cases hx : x.activated = true
    · have hnr : "downloadFinished" ∉ x.raising := h x (List.mem_cons_self x xs) hx
      by_cases hxt : "downloadFinished" ∈ x.threaded <;>
        simp [downloadFinishedLoop, hx, hnr, hxt, List.filter_cons, ih hxs]
    · simp [downloadFinishedLoop, hx, List.filter_cons, ih hxs]

theorem packageFinishedLoop_raise_at (pid : Nat) (p : Plugin)
    (hp : p.activated = true) (ht : "packageFinished" ∉ p.threaded)
    (hr : "packageFinished" ∈ p.raising) :
    ∀ pre : List Plugin, ∀ post : List Plugin,
      (∀ q ∈ pre, q.activated = true → "packageFinished" ∉ q.raising) →
      packageFinishedLoop pid (pre ++ p :: post) =
        ((pre.filter (fun x => x.activated)).map
            (fun q =>
              if "packageFinished" ∈ q.threaded then
                Action.threadStart q.name "packageFinished" (Arg.package pid)
              else Action.hookCall q.name "packageFinished" (Arg.package pid))
          ++ [Action.hookCall p.name "packageFinished" (Arg.package pid)], true) := by
  intro pre post
  induction pre with
  | nil => intro _; simp [packageFinishedLoop, hp, ht, hr]
  | cons x xs ih =>
    intro h
    have hxs := fun q hq => h q (List.mem_cons_of_mem x hq)
    by_cases hx : x.activated = true
    · have hnr : "packageFinished" ∉ x.raising := h x (List.mem_cons_self x xs) hx
      by_cases hxt : "packageFinished" ∈ x.threaded <;>
        simp [packageFinishedLoop, hx, hnr, hxt, List.filter_cons, ih hxs]
    · simp [packageFinishedLoop, hx, List.filter_cons, ih hxs]

theorem afterReconnectingLoop_raise_at (addr : String) (p : Plugin)
    (hp : p.activated = true) (hr : "afterReconnecting" ∈ p.raising) :
    ∀ pre : List Plugin, ∀ post : List Plugin,
      (∀ q ∈ pre, q.activated = true → "afterReconnecting" ∉ q.raising) →
      afterReconnectingLoop addr (pre ++ p :: post) =
        ((pre.filter (fun x => x.activated)).map
            (fun q => Action.hookCall q.name "afterReconnecting" (Arg.ip addr))
          ++ [Action.hookCall p.name "afterReconnecting" (Arg.ip addr)], true) := by
  intro pre post
  induction pre with
  | nil => intro _; simp [afterReconnectingLoop, hp, hr]
  | cons x xs ih =>
    intro h
    have hxs := fun q hq => h q (List.mem_cons_of_mem x hq)
    by_cases hx : x.activated = true
    · have hnr : "afterReconnecting" ∉ x.raising := h x (List.mem_cons_self x xs) hx
      simp [afterReconnectingLoop, hx, hnr, List.filter_cons, ih hxs]
    · simp [afterReconnectingLoop, hx, List.filter_cons, ih hxs]

/-- C5 (amended) -- `downloadPreparing`, `downloadFinished`,
`packageFinished` and `afterReconnecting` have no per-plugin exception
guard: when an activated plugin's inline hook raises, the iteration
stops there (the plugins after it are never invoked), the same-named
event is not fired, the exception propagates to the dispatcher's caller,
and only the lock release still happens. -/
theorem C5_no_per_plugin_guard (st : AMState) (fid pid : Nat) (addr : String)
    (pre post : List Plugin) (p : Plugin) :
    (st.plugins = pre ++ p :: post → p.activated = true →
      "downloadPreparing" ∈ p.raising →
      (∀ q ∈ pre, q.activated = true → "downloadPreparing" ∉ q.raising) →
      downloadPreparing st fid =
        (Action.acquire ::
          ((pre.filter (fun x => x.activated)).map
              (fun q => Action.hookCall q.name "downloadPreparing" (Arg.pyfile fid))
            ++ [Action.hookCall p.name "downloadPreparing" (Arg.pyfile fid)])
          ++ [Action.release], true)) ∧
    (st.plugins = pre ++ p :: post → p.activated = true →
      "downloadFinished" ∉ p.threaded → "downloadFinished" ∈ p.raising →
      (∀ q ∈ pre, q.activated = true → "downloadFinished" ∉ q.raising) →
      downloadFinished st fid =
        (Action.acquire ::
          ((pre.filter (fun x => x.activated)).map
              (fun q =>
                if "downloadFinished" ∈ q.threaded then
                  Action.threadStart q.name "downloadFinished" (Arg.pyfile fid)
                else Action.hookCall q.name "downloadFinished" (Arg.pyfile fid))
            ++ [Action.hookCall p.name "downloadFinished" (Arg.pyfile fid)])
          ++ [Action.release], true)) ∧
    (st.plugins = pre ++ p :: post → p.activated = true →
      "packageFinished" ∉ p.threaded → "packageFinished" ∈ p.raising →
      (∀ q ∈ pre, q.activated = true → "packageFinished" ∉ q.raising) →
      packageFinished st pid =
        (Action.acquire ::
          ((pre.filter (fun x => x.activated)).map
              (fun q =>
                if "packageFinished" ∈ q.threaded then
                  Action.threadStart q.name "packageFinished" (Arg.package pid)
                else Action.hookCall q.name "packageFinished" (Arg.package pid))
            ++ [Action.hookCall p.name "packageFinished" (Arg.package pid)])
          ++ [Action.release], true)) ∧
    (st.plugins = pre ++ p :: post → p.activated = true →
      "afterReconnecting" ∈ p.raising →
      (∀ q ∈ pre, q.activated = true → "afterReconnecting" ∉ q.raising) →
      afterReconnecting st addr =
        (Action.acquire ::
          ((pre.filter (fun x => x.activated)).map
              (fun q => Action.hookCall q.name "afterReconnecting" (Arg.ip addr))
            ++ [Action.hookCall p.name "afterReconnecting" (Arg.ip addr)])
          ++ [Action.release], true)) := by
  refine ⟨?_, ?_, ?_, ?_⟩
  · intro hsplit hp hr hpre
    simp only [downloadPreparing, hsplit]
    rw [downloadPreparingLoop_raise_at fid p hp hr pre post hpre]
    rfl
  · intro hsplit hp ht hr hpre
    simp only [downloadFinished, hsplit]
    rw [downloadFinishedLoop_raise_at fid p hp ht hr pre post hpre]
    rfl
  · intro hsplit hp ht hr hpre
    simp only [packageFinished, hsplit]
    rw [packageFinishedLoop_raise_at pid p hp ht hr pre post hpre]
    rfl
  · intro hsplit hp hr hpre
    simp only [afterReconnecting, hsplit]
    rw [afterReconnectingLoop_raise_at addr p hp hr pre post hpre]
    rfl

/-- An activated instance whose inline hooks all raise. -/
def pluginCrash : Plugin :=
  { name := "Crash", activated := true, threaded := [],
    raising := ["downloadPreparing", "downloadFinished", "packageFinished",
      "afterReconnecting"],
    unloadRaises := false, info := [], attrs := [] }

/-- A harmless activated instance listed after the crashing one. -/
def pluginAfter : Plugin :=
  { name := "After", activated := true, threaded := [], raising := [],
    unloadRaises := false, info := [], attrs := [] }

/-- An index with the crashing plugin before a healthy one. -/
def stCrash : AMState :=
  { plugins := [pluginCrash, pluginAfter],
    pluginMap := [("Crash", pluginCrash), ("After", pluginAfter)],
    methods := [], events := [] }

/-- C5 counterexample -- with activated plugins `"Crash"` (whose
`downloadPreparing` raises) and `"After"` in that order,
`downloadPreparing` stops after `"Crash"`: `"After"` is never invoked,
the event is not fired, and the exception propagates to the caller
(second component `true`) — against the claim that such a failure is
caught, logged, and does not stop the iteration. -/
theorem C5_counterexample_exception_stops_iteration :
    downloadPreparing stCrash 3 =
      ([Action.acquire,
        Action.hookCall "Crash" "downloadPreparing" (Arg.pyfile 3),
        Action.release], true) := rfl

/-- Concrete runs for the amended C5 on all four hooks. -/
theorem C5_no_per_plugin_guard_witness :
    downloadPreparing stCrash 5 =
      ([Action.acquire,
        Action.hookCall "Crash" "downloadPreparing" (Arg.pyfile 5),
        Action.release], true) ∧
    downloadFinished stCrash 5 =
      ([Action.acquire,
        Action.hookCall "Crash" "downloadFinished" (Arg.pyfile 5),
        Action.release], true) ∧
    packageFinished stCrash 6 =
      ([Action.acquire,
        Action.hookCall "Crash" "packageFinished" (Arg.package 6),
        Action.release], true) ∧
    afterReconnecting stCrash "8.8.8.8" =
      ([Action.acquire,
        Action.hookCall "Crash" "afterReconnecting" (Arg.ip "8.8.8.8"),
        Action.release], true) := by
  have h := C5_no_per_plugin_guard stCrash 5 6 "8.8.8.8" [] [pluginAfter] pluginCrash
  exact ⟨h.1 rfl rfl (by decide) (by intro q hq; cases hq),
    h.2.1 rfl rfl (by decide) (by decide) (by intro q hq; cases hq),
    h.2.2.1 rfl rfl (by decide) (by decide) (by intro q hq; cases hq),
    h.2.2.2 rfl rfl (by decide) (by intro q hq; cases hq)⟩

/-! ## The `downloadFailed` threaded branch -/

/-- An activated instance declaring `downloadFailed` threaded. -/
def pluginThr : Plugin :=
  { name := "ThrA", activated := true, threaded := ["downloadFailed"],
    raising := [], unloadRaises := false, info := [], attrs := [] }

/-- An activated instance handling `downloadFailed` inline. -/
def pluginInl : Plugin :=
  { name := "InlB", activated := true, threaded := [], raising := [],
    unloadRaises := false, info := [], attrs := [] }

/-- An index with one threaded and one inline `downloadFailed` handler. -/
def stThr : AMState :=
  { plugins := [pluginThr, pluginInl],
    pluginMap := [("ThrA", pluginThr), ("InlB", pluginInl)],
    methods := [], events := [] }

/-- C1 -- evaluating `downloadFailed(pyfile)` on the concrete index: the
plugin declaring the hook threaded gets `plugin.downloadFinished` — not
its own `downloadFailed` — submitted to the Background Dispatcher (the
slip at line 217 of the source), while the non-threaded plugin's
`downloadFailed` is called inline with the pyfile as the claim states. -/
theorem C1_downloadFailed_threaded_submits_downloadFinished :
    downloadFailed stThr 7 =
      ([Action.acquire,
        Action.threadStart "ThrA" "downloadFinished" (Arg.pyfile 7),
        Action.hookCall "InlB" "downloadFailed" (Arg.pyfile 7),
        Action.release], false) := rfl

/-! ## `createIndex` keeps instances regardless of `isActivated()` -/

theorem mem_plugins_createIndexStep (st : AMState) (s : AddonSpec) (p : Plugin)
    (h : p ∈ st.plugins) : p ∈ (createIndexStep st s).plugins := by
  unfold createIndexStep
  (repeat' split) <;> first
  | exact h
  | exact List.mem_append_left _ h

theorem mem_plugins_foldl_createIndex (p : Plugin) :
    ∀ (specs : List AddonSpec) (st : AMState), p ∈ st.plugins →
      p ∈ (specs.foldl createIndexStep st).plugins := by
  intro specs
  induction specs with
  | nil => intro st h; exact h
  | cons s specs ih =>
    intro st h
    rw [List.foldl_cons]
    exact ih _ (mem_plugins_createIndexStep st s p h)

theorem lookupA_filterMap_info (k : String) (p : Plugin) :
    ∀ l : List (String × Plugin), lookupA l k = some p → p.info ≠ [] →
      lookupA (l.filterMap (fun kv =>
        if kv.2.info ≠ [] then some (kv.1, kv.2.info) else none)) k = some p.info := by
  intro l
  induction l with
  | nil => intro h _; cases h
  | cons kv rest ih =>
    intro h hinfo
    by_cases hk : kv.1 = k
    · have hkv : kv.2 = p := by simpa [lookupA, hk] using h
      subst hkv
      simp [List.filterMap_cons, hinfo, lookupA, hk]
    · have h' : lookupA rest k = some p := by simpa [lookupA, hk] using h
      by_cases hi : kv.2.info ≠ []
      · simp [List.filterMap_cons, hi, lookupA, hk]
        simpa using ih h' hinfo
      · simp [List.filterMap_cons, hi]
        simpa using ih h' hinfo

/-- C10 (amended) -- index membership is decided by the configuration
flag at instantiation time, never by `isActivated()`: a configured-active,
loadable, constructible plugin is appended to `plugins` and stored in
`pluginMap` by `createIndex` whatever its `isActivated()` value; an
in-index instance with `isActivated()` false is skipped by
`downloadPreparing` (given unique naming) yet still receives
`beforeReconnecting`; and it appears in `getAllInfo`/`getInfo` provided
it stores a non-empty `info` dict (those queries filter on stored info
only, never on activation). -/
theorem C10_index_membership_by_config_flag (st₀ st : AMState)
    (specs : List AddonSpec) (s : AddonSpec) (p : Plugin) (fid : Nat)
    (addr : String) :
    (s.configActivated = true → s.loadResult = some p → s.instRaises = false →
      (createIndexStep st₀ s).plugins = st₀.plugins ++ [p] ∧
      (createIndexStep st₀ s).pluginMap = insertA st₀.pluginMap p.name p) ∧
    (s ∈ specs → s.configActivated = true → s.loadResult = some p →
      s.instRaises = false → p ∈ (createIndex specs st₀).plugins) ∧
    (p ∈ st.plugins → (∀ q ∈ st.plugins, q.raising = ([] : List String)) →
      p.name ∈ invokedNames (beforeReconnecting st addr).1) ∧
    (p ∈ st.plugins → p.activated = false →
      (∀ q ∈ st.plugins, q.raising = ([] : List String)) →
      (∀ q ∈ st.plugins, q.name = p.name → q = p) →
      p.name ∉ invokedNames (downloadPreparing st fid).1) ∧
    (lookupA st.pluginMap p.name = some p → p.info ≠ [] →
      lookupA (getAllInfo st) p.name = some p.info ∧ getInfo st p.name = p.info) := by
  refine ⟨?_, ?_, ?_, ?_, ?_⟩
  · intro hc hl hi
    unfold createIndexStep
    rw [hc, hl]
    simp [hi]
  · intro hs hc hl hi
    obtain ⟨l1, l2, rfl⟩ := List.append_of_mem hs
    unfold createIndex
    rw [List.foldl_append, List.foldl_cons]
    refine mem_plugins_foldl_createIndex p l2 _ ?_
    have hstep := (fun st' => by
      unfold createIndexStep
      rw [hc, hl]
      simp [hi] :
      ∀ st' : AMState, (createIndexStep st' s).plugins = st'.plugins ++ [p])
    rw [hstep]
    exact List.mem_append_right _ (List.mem_singleton.mpr rfl)
  · intro hmem hnoraise
    rw [invokedNames_beforeReconnecting st addr
      (fun q hq => by rw [hnoraise q hq]; exact List.not_mem_nil _)]
    exact List.mem_map_of_mem _ hmem
  · intro hmem hact hnoraise huniq
    rw [invokedNames_downloadPreparing st fid
      (fun q hq _ => by rw [hnoraise q hq]; exact List.not_mem_nil _)]
    intro hin
    obtain ⟨q, hqmem, hqname⟩ := List.mem_map.mp hin
    have hqf := List.mem_filter.mp hqmem
    have hqp : q = p := huniq q hqf.1 hqname
    rw [hqp] at hqf
    rw [hact] at hqf
    exact absurd hqf.2 (by simp)
  · intro hmap hinfo
    constructor
    · exact lookupA_filterMap_info p.name p st.pluginMap hmap hinfo
    · unfold getInfo
      rw [hmap]
      simp [hinfo]

/-- A configured-active instance whose `isActivated()` is false and whose
`info` dict is empty. -/
def pluginSilent : Plugin :=
  { name := "Silent", activated := false, threaded := [], raising := [],
    unloadRaises := false, info := [], attrs := [] }

/-- The discovery entry for `"Silent"`: configured active, loadable. -/
def specSilent : AddonSpec :=
  { pname := "Silent", configActivated := true,
    loadResult := some pluginSilent, instRaises := false }

/-- The index built from that single entry. -/
def stSilent : AMState := createIndex [specSilent] emptyState

/-- C10 counterexample -- `"Silent"` (configured active, `isActivated()`
false, empty `info`) is kept in `plugins` and `pluginMap` by
`createIndex`, yet it does *not* appear in the maps returned by
`getAllInfo`/`getInfo`, against the claim that such an instance still
appears there. -/
theorem C10_counterexample_no_info_entry :
    stSilent.plugins = [pluginSilent] ∧
    lookupA stSilent.pluginMap "Silent" = some pluginSilent ∧
    pluginSilent.activated = false ∧
    getAllInfo stSilent = [] ∧
    getInfo stSilent "Silent" = [] :=
  ⟨rfl, rfl, rfl, rfl, rfl⟩

/-- A configured-active instance with `isActivated()` false that stores
a non-empty `info` dict. -/
def pluginDim : Plugin :=
  { name := "Dim", activated := false, threaded := [], raising := [],
    unloadRaises := false, info := [("version", "1")], attrs := [] }

/-- The discovery entry for `"Dim"`. -/
def specDim : AddonSpec :=
  { pname := "Dim", configActivated := true,
    loadResult := some pluginDim, instRaises := false }

/-- The index built from that single entry. -/
def stDim : AMState := createIndex [specDim] emptyState

/-- Concrete runs for the amended C10 on the `"Dim"` instance. -/
theorem C10_index_membership_by_config_flag_witness :
    pluginDim ∈ (createIndex [specDim] emptyState).plugins ∧
    "Dim" ∈ invokedNames (beforeReconnecting stDim "1.2.3.4").1 ∧
    "Dim" ∉ invokedNames (downloadPreparing stDim 1).1 ∧
    (lookupA (getAllInfo stDim) "Dim" = some [("version", "1")] ∧
      getInfo stDim "Dim" = [("version", "1")]) := by
  refine ⟨?_, ?_, ?_, ?_⟩
  · exact (C10_index_membership_by_config_flag emptyState stDim [specDim]
      specDim pluginDim 1 "1.2.3.4").2.1 (by decide) rfl rfl rfl
  · exact (C10_index_membership_by_config_flag emptyState stDim [specDim]
      specDim pluginDim 1 "1.2.3.4").2.2.1 (by decide)
      (by intro q hq; fin_cases hq <;> rfl)
  · exact (C10_index_membership_by_config_flag emptyState stDim [specDim]
      specDim pluginDim 1 "1.2.3.4").2.2.2.1 (by decide) rfl
      (by intro q hq; fin_cases hq <;> rfl)
      (by intro q hq; fin_cases hq <;> intro _ <;> rfl)
  · exact (C10_index_membership_by_config_flag emptyState stDim [specDim]
      specDim pluginDim 1 "1.2.3.4").2.2.2.2 rfl (by decide)

end AddonMgr
